import Mathlib

/-!
Shallow embedding of the command-execution core of the `cgpu` CLI
(`RemoteCommandRunner` in `src/runtime/remote-command-runner.ts`): the
line processor (ANSI stripping, prompt stripping, sentinel detection,
boilerplate suppression), the per-frame message handler, the close
handler that produces the final exit code, and the `run()` entry
orchestration (empty-command check, terminal creation, socket streaming).

Text is modeled as `List Char`; JavaScript strings of the source become
character lists, and the observable effects (`process.stdout.write`,
`process.stderr.write`, `console.warn`) become explicit fields of the
state record.
-/

set_option maxRecDepth 20000

/-- Characters of the shell prompt decoration stripped from remote lines;
`PROMPT_PREFIX = "/# "` in the source. -/
def promptMark : List Char := "/# ".data

/-- Characters of the constant sentinel token stem;
`EXIT_SENTINEL_PREFIX = "__COLAB_CLI_EXIT__"` in the source (the per-run
marker is this stem followed by a random UUID). -/
def exitSentinelMark : List Char := "__COLAB_CLI_EXIT__".data

/-- Parameter bytes of an ANSI CSI escape sequence: the character class
`[0-9;?]` of `ANSI_ESCAPE_REGEX`. -/
def isParamByte (c : Char) : Bool :=
  decide (('0' ≤ c ∧ c ≤ '9') ∨ c = ';' ∨ c = '?')

/-- Intermediate bytes of an ANSI CSI escape sequence: the character class
`[ -\/]` (0x20–0x2F) of `ANSI_ESCAPE_REGEX`. -/
def isIntermediateByte (c : Char) : Bool :=
  decide (' ' ≤ c ∧ c ≤ '/')

/-- Final bytes of an ANSI CSI escape sequence: the character class
`[@-~]` (0x40–0x7E) of `ANSI_ESCAPE_REGEX`. -/
def isFinalByte (c : Char) : Bool :=
  decide ('@' ≤ c ∧ c ≤ '~')

/-- Attempt to match the tail of `ANSI_ESCAPE_REGEX` (everything after the
escape character): a literal `[`, then parameter bytes, then intermediate
bytes, then one final byte.  Returns the remainder after the match, or
`none` when no match starts here. -/
def csiSplit : List Char → Option (List Char)
  | '[' :: rest =>
    match (rest.dropWhile isParamByte).dropWhile isIntermediateByte with
    | f :: rest3 => if isFinalByte f then some rest3 else none
    | [] => none
  | _ => none

/-- Fuel-indexed scanner implementing the global regex replacement
`value.replace(ANSI_ESCAPE_REGEX, "")`: at each escape character, if the
CSI pattern matches, the whole sequence is dropped and scanning resumes
after it; otherwise the character is kept.  The fuel only serves to make
the recursion structural; `stripAnsi` instantiates it with the length of
the input, which is always enough. -/
def stripAnsiFuel : Nat → List Char → List Char
  | 0, l => l
  | _ + 1, [] => []
  | n + 1, c :: rest =>
    if c = '\x1b' then
      match csiSplit rest with
      | some rest3 => stripAnsiFuel n rest3
      | none => c :: stripAnsiFuel n rest
    else c :: stripAnsiFuel n rest

/-- Embedding of `stripAnsi` from the source: remove every match of
`ANSI_ESCAPE_REGEX` (`\u001b\[[0-9;?]*[ -\/]*[@-~]`, global). -/
def stripAnsi (l : List Char) : List Char := stripAnsiFuel l.length l

/-- Embedding of `line.replace(/\r/g, "")`: delete every carriage return. -/
def removeCr (l : List Char) : List Char := l.filter (fun c => c ≠ '\r')

/-- JavaScript `String.prototype.trim` whitespace characters (the ASCII
ones plus NBSP and the BOM; sufficient for every string this program
handles). -/
def isJsSpace (c : Char) : Bool :=
  decide (c = ' ' ∨ c = '\t' ∨ c = '\n' ∨ c = '\r' ∨ c = '\x0b' ∨
    c = '\x0c' ∨ c = '\u00A0' ∨ c = '\uFEFF')

/-- Embedding of JavaScript `s.trim()`: drop whitespace from both ends. -/
def jsTrim (l : List Char) : List Char :=
  ((l.dropWhile isJsSpace).reverse.dropWhile isJsSpace).reverse

/-- Embedding of JavaScript `s.startsWith(p)` on character lists. -/
def startsWith : List Char → List Char → Bool
  | _, [] => true
  | [], _ :: _ => false
  | c :: s, d :: p => c == d && startsWith s p

/-- Numeric value of a list of decimal digit characters, most significant
first. -/
def digitsVal (l : List Char) : Nat :=
  l.foldl (fun n c => n * 10 + (c.toNat - '0'.toNat)) 0

/-- Embedding of JavaScript `Number.parseInt(s, 10)` restricted to the
integer/NaN distinction: skip leading whitespace, accept an optional
sign, read the maximal run of decimal digits; `none` models `NaN` (no
digits at all), `some` the parsed integer. -/
def parseIntBase10 (s : List Char) : Option Int :=
  let t := s.dropWhile isJsSpace
  match t with
  | '-' :: rest =>
    let d := rest.takeWhile Char.isDigit
    if d = [] then none else some (-(digitsVal d : Int))
  | '+' :: rest =>
    let d := rest.takeWhile Char.isDigit
    if d = [] then none else some (digitsVal d : Int)
  | _ =>
    let d := t.takeWhile Char.isDigit
    if d = [] then none else some (digitsVal d : Int)

/-- Embedding of `shouldSuppressLine` from the source: a cleansed line is
boilerplate when it starts with `<exitMarker>:`, starts with the constant
text `printf '__COLAB_CLI_EXIT__`, or is exactly one of the echoed
prologue/epilogue literals `PS1=`, `stty -echo`, `stty echo`, `exit`,
`logout`.  The if/switch cascade of the source is an exact early-return
disjunction. -/
def shouldSuppressLine (line : List Char) (exitMarker : List Char) : Bool :=
  startsWith line (exitMarker ++ [':']) ||
  startsWith line ("printf \x27__COLAB_CLI_EXIT__".data) ||
  line == "PS1=".data || line == "stty -echo".data || line == "stty echo".data ||
  line == "exit".data || line == "logout".data

/-- First processing step of `flushLine`:
`const normalized = stripAnsi(line.replace(/\r/g, ""))`. -/
def normalizeLine (line : List Char) : List Char := stripAnsi (removeCr line)

/-- Second processing step of `flushLine`: remove a leading prompt
decoration (`normalized.startsWith(PROMPT_PREFIX) ? normalized.slice(...)
: normalized`). -/
def dropPromptMark (normalized : List Char) : List Char :=
  if startsWith normalized promptMark then normalized.drop promptMark.length
  else normalized

/-- Composition of the cleansing pipeline applied to a completed line
before sentinel detection: carriage-return removal, ANSI stripping,
prompt stripping, and trimming (`const detectionTarget =
withoutPrompt.trim()`). -/
def detectionTargetOf (line : List Char) : List Char :=
  jsTrim (dropPromptMark (normalizeLine line))

/-- State mutated by `flushLine`: the captured exit code closure variable
and the sequence of lines actually written to the client standard output
(each source write is `process.stdout.write(outputLine + "\n")`). -/
structure FlushState where
  capturedExitCode : Option Int
  stdoutOut : List (List Char)
deriving DecidableEq, Repr

/-- Embedding of the `flushLine` closure of `streamCommand`: cleanse the
line; a sentinel line records the parsed status (when numeric) and is
never printed; otherwise, outside verbose mode, boilerplate is dropped;
otherwise the cleansed line (or, in verbose mode, the raw line) is
written when non-empty. -/
def flushLine (verbose : Bool) (exitMarker : List Char) (fs : FlushState)
    (line : List Char) : FlushState :=
  let withoutPrompt := dropPromptMark (normalizeLine line)
  let detectionTarget := jsTrim withoutPrompt
  if startsWith detectionTarget (exitMarker ++ [':']) then
    match parseIntBase10 (detectionTarget.drop (exitMarker.length + 1)) with
    | some code => { fs with capturedExitCode := some code }
    | none => fs
  else if !verbose && shouldSuppressLine detectionTarget exitMarker then fs
  else
    let outputLine := if !verbose then withoutPrompt else line
    if 0 < outputLine.length then { fs with stdoutOut := fs.stdoutOut ++ [outputLine] }
    else fs

/-- Split a buffer at its first newline: `some (line, rest)` when
`buffer.indexOf("\n")` is not `-1`, `none` otherwise.  One step of the
`while (newlineIndex !== -1)` loop of the stdout case. -/
def splitFirstNewline : List Char → Option (List Char × List Char)
  | [] => none
  | c :: rest =>
    if c = '\n' then some ([], rest)
    else
      match splitFirstNewline rest with
      | none => none
      | some (l, r) => some (c :: l, r)

/-- Fuel-indexed form of the stdout drain loop: repeatedly split the
buffer at its first newline and flush the completed line, stopping when
no newline remains.  Structural in the fuel; each iteration strictly
shortens the buffer, so a fuel equal to the buffer length is always
enough. -/
def drainFuel (flush : σ → List Char → σ) : Nat → σ → List Char → σ × List Char
  | 0, st, buf => (st, buf)
  | n + 1, st, buf =>
    match splitFirstNewline buf with
    | none => (st, buf)
    | some (l, r) => drainFuel flush n (flush st l) r

/-- Embedding of the `while` loop in the `"stdout"` case of the message
handler: flush every completed line of the buffer and return the final
flush state together with the remaining (newline-free) buffer. -/
def drainLines (flush : σ → List Char → σ) (st : σ) (buf : List Char) : σ × List Char :=
  drainFuel flush buf.length st buf

/-- Complete mutable state of one `streamCommand` invocation: the
line-reassembly buffer, the `flushLine` closure state, the raw bytes
written to the client standard error, and the number of
`console.warn` calls observed. -/
structure RunState where
  stdoutBuffer : List Char
  flushSt : FlushState
  stderrOut : List (List Char)
  warnings : Nat
deriving DecidableEq, Repr

/-- State at the start of `streamCommand`: empty buffer, no captured exit
code (`let stdoutBuffer = ""; let capturedExitCode: number | undefined`),
nothing written yet. -/
def initialRunState : RunState :=
  { stdoutBuffer := [], flushSt := { capturedExitCode := none, stdoutOut := [] },
    stderrOut := [], warnings := 0 }

/-- Decoded wire frame: the `TerminalFrame` tagged tuple of the source,
plus a constructor for frames whose leading tag is none of the five known
tags (the remote protocol may send such frames; they reach the `default`
switch branch). -/
inductive WireFrame where
  | stdout (text : List Char)
  | stderr (text : List Char)
  | stdin (text : List Char)
  | disconnect (reason : List Char)
  | setSize (rows cols widthPx heightPx : Int)
  | unknownTag (tag : List Char)
deriving DecidableEq, Repr

/-- One `"message"` socket event as seen after `JSON.parse`: either a
successfully decoded frame, or `malformed` when `JSON.parse` threw (the
`catch` branch of the handler). -/
inductive MsgEvent where
  | frame (f : WireFrame)
  | malformed
deriving DecidableEq, Repr

/-- Embedding of the `ws.on("message", ...)` handler of `streamCommand`:
a malformed frame is logged with `console.warn` and skipped; a `stdout`
frame is appended to the line buffer which is then drained at every
newline through `flushLine`; a `stderr` frame is written raw to the
client standard error; `disconnect` only logs in verbose mode; every
other tag (including the known `stdin` and `set_size` tags) falls into
the `default` branch and is ignored. -/
def handleMessage (verbose : Bool) (exitMarker : List Char) (st : RunState) :
    MsgEvent → RunState
  | .malformed => { st with warnings := st.warnings + 1 }
  | .frame (.stdout text) =>
    let r := drainLines (flushLine verbose exitMarker) st.flushSt (st.stdoutBuffer ++ text)
    { st with flushSt := r.1, stdoutBuffer := r.2 }
  | .frame (.stderr text) => { st with stderrOut := st.stderrOut ++ [text] }
  | .frame (.disconnect _) => st
  | .frame (.stdin _) => st
  | .frame (.setSize _ _ _ _) => st
  | .frame (.unknownTag _) => st

/-- First half of the `ws.once("close", ...)` handler: flush any trailing
unterminated line through `flushLine` and clear the buffer
(`if (stdoutBuffer.length > 0) { flushLine(stdoutBuffer); stdoutBuffer = "" }`). -/
def closeFlush (verbose : Bool) (exitMarker : List Char) (st : RunState) : RunState :=
  if 0 < st.stdoutBuffer.length then
    { st with
      flushSt := flushLine verbose exitMarker st.flushSt st.stdoutBuffer
      stdoutBuffer := [] }
  else st

/-- Second half of the close handler: after the trailing flush, resolve
the run with the captured exit code, or warn and resolve `1` when no exit
code was ever captured. -/
def closeResult (verbose : Bool) (exitMarker : List Char) (st : RunState) :
    RunState × Int :=
  let st1 := closeFlush verbose exitMarker st
  match st1.flushSt.capturedExitCode with
  | none => ({ st1 with warnings := st1.warnings + 1 }, 1)
  | some code => (st1, code)

/-- Whole observable behaviour of `streamCommand` for one socket session:
process the message events in arrival order from the initial state, then
run the close handler once (the run resolves only on socket close).  The
result is the final state paired with the resolved exit code. -/
def streamCommand (verbose : Bool) (exitMarker : List Char)
    (events : List MsgEvent) : RunState × Int :=
  closeResult verbose exitMarker (events.foldl (handleMessage verbose exitMarker) initialRunState)

/-- Literal text of the sentinel-printing epilogue command sent to the
remote shell: `printf '<exitMarker>:%s\n' "$__COLAB_CLI_STATUS"` (the
backslash-n is two literal characters inside the shell word). -/
def printfSentinelCmd (exitMarker : List Char) : List Char :=
  "printf \x27".data ++ exitMarker ++ "\x27:%s\\n\x27 \"$__COLAB_CLI_STATUS\"".data

/-- Lines of the wrapped stdin payload sent by `streamCommand`, in order;
the payload string is these lines joined with newlines. -/
def wrappedPayloadLines (command exitMarker : List Char) : List (List Char) :=
  ["stty -echo".data, "PS1=".data, command, "__COLAB_CLI_STATUS=$?".data,
   "stty echo".data, printfSentinelCmd exitMarker, "exit".data, []]

/-- Failure modes of `run()` in the embedding: the empty-command guard
throw, and the non-success HTTP status throw of `createRemoteTerminal`. -/
inductive RunError where
  | emptyCommand
  | createTerminalFailed (statusText : List Char)
deriving DecidableEq, Repr

/-- Network side effects `run()` can perform, in order: the HTTP
`POST api/terminals` request of `createRemoteTerminal`, then the
streaming-socket open of `executeInTerminal` to the terminal name the
HTTP response returned. -/
inductive NetAction where
  | createTerminalRequest
  | socketOpen (terminalName : List Char)
deriving DecidableEq, Repr

/-- Outcome of the `fetch` in `createRemoteTerminal` as the embedding
sees it: `res.ok`, the `name` field of the decoded JSON body, and
`res.statusText`. -/
structure CreateTerminalResponse where
  ok : Bool
  name : List Char
  statusText : List Char
deriving DecidableEq, Repr

/-- Embedding of `RemoteCommandRunner.run` and the handshake it drives:
reject a blank command before any network activity; otherwise perform the
HTTP create-terminal request, fail without opening the socket when the
response is not ok, and otherwise open the socket and stream the command.
Returns the run outcome together with the ordered list of network actions
performed. -/
def runCommand (verbose : Bool) (exitMarker : List Char) (command : List Char)
    (resp : CreateTerminalResponse) (events : List MsgEvent) :
    Except RunError (RunState × Int) × List NetAction :=
  if jsTrim command = [] then (.error .emptyCommand, [])
  else if resp.ok = false then
    (.error (.createTerminalFailed resp.statusText), [.createTerminalRequest])
  else
    (.ok (streamCommand verbose exitMarker events),
     [.createTerminalRequest, .socketOpen resp.name])

/-- Shape of one complete match of `ANSI_ESCAPE_REGEX`: escape, `[`, any
parameter bytes, any intermediate bytes, one final byte. -/
def IsCsi (e : List Char) : Prop :=
  ∃ ps ins f, (∀ c ∈ ps, isParamByte c = true) ∧
    (∀ c ∈ ins, isIntermediateByte c = true) ∧ isFinalByte f = true ∧
    e = '\x1b' :: '[' :: (ps ++ ins ++ [f])

/-- Decoration relation: `Decorated s w` holds when `w` is the text `s`
with complete ANSI CSI escape sequences inserted at arbitrary positions.
This is the shape of line the spec describes as output text decorated
with escape sequences. -/
inductive Decorated : List Char → List Char → Prop where
  | nil : Decorated [] []
  | chr (c : Char) {s w : List Char} : Decorated s w → Decorated (c :: s) (c :: w)
  | esc {e s w : List Char} : IsCsi e → Decorated s w → Decorated s (e ++ w)

/-- Boilerplate in the claim sense for the suppression rule: the literal
echo of one of the prologue/epilogue commands of the wrapped payload
(every payload line other than the user command itself and the empty
terminator), or a bare shell session artifact `exit`/`logout`.  This
follows the wording of the specification, to be compared with the code
recognizer `shouldSuppressLine`. -/
def claimBoilerplate (command exitMarker line : List Char) : Prop :=
  (line ∈ wrappedPayloadLines command exitMarker ∧ line ≠ command ∧ line ≠ []) ∨
  line = "exit".data ∨ line = "logout".data

/-! ### Basic lemmas about the text utilities -/

theorem startsWith_iff {s p : List Char} : startsWith s p = true ↔ p <+: s := by
  induction p generalizing s with
  | nil => simp [startsWith]
  | cons d p ih =>
    cases s with
    | nil => simp [startsWith]
    | cons c s =>
      simp only [startsWith, Bool.and_eq_true, beq_iff_eq, List.cons_prefix_cons, ih]
      constructor
      · rintro ⟨h1, h2⟩; exact ⟨h1.symm, h2⟩
      · rintro ⟨h1, h2⟩; exact ⟨h1.symm, h2⟩

theorem startsWith_append (p x : List Char) : startsWith (p ++ x) p = true :=
  startsWith_iff.mpr (List.prefix_append p x)

theorem jsTrim_infix_self (l : List Char) : jsTrim l <:+: l := by
  have h1 : l.dropWhile isJsSpace <:+ l := List.dropWhile_suffix _
  have h2 : (l.dropWhile isJsSpace).reverse.dropWhile isJsSpace <:+
      (l.dropWhile isJsSpace).reverse := List.dropWhile_suffix _
  have h3 : jsTrim l <+: l.dropWhile isJsSpace := by
    unfold jsTrim
    rw [← List.reverse_suffix, List.reverse_reverse]
    exact h2
  exact h3.isInfix.trans h1.isInfix

theorem jsTrim_eq_nil_of_all_space {l : List Char}
    (h : ∀ c ∈ l, isJsSpace c = true) : jsTrim l = [] := by
  have h1 : l.dropWhile isJsSpace = [] := List.dropWhile_eq_nil_iff.mpr h
  simp [jsTrim, h1]

theorem marker_infix_of_detection {s m : List Char}
    (h : startsWith (jsTrim s) (m ++ [':']) = true) : m <:+: s := by
  have h1 : m ++ [':'] <+: jsTrim s := startsWith_iff.mp h
  have h2 : m <+: jsTrim s := (List.prefix_append m [':']).trans h1
  exact h2.isInfix.trans (jsTrim_infix_self s)

theorem removeCr_eq_self {l : List Char} (h : '\r' ∉ l) : removeCr l = l := by
  rw [removeCr, List.filter_eq_self]
  intro a ha
  simp only [decide_eq_true_eq]
  rintro rfl
  exact h ha

theorem removeCr_append (a b : List Char) :
    removeCr (a ++ b) = removeCr a ++ removeCr b :=
  List.filter_append a b

/-! ### Lemmas about the ANSI escape scanner -/

theorem csiSplit_length {l r : List Char} (h : csiSplit l = some r) :
    r.length < l.length := by
  unfold csiSplit at h
  split at h
  · rename_i rest
    split at h
    · rename_i f rest3 heq
      split at h
      · cases h
        have h1 : ((rest.dropWhile isParamByte).dropWhile isIntermediateByte).length ≤
            rest.length :=
          le_trans ((List.dropWhile_suffix _).sublist.length_le)
            ((List.dropWhile_suffix _).sublist.length_le)
        rw [heq] at h1
        simp only [List.length_cons] at h1 ⊢
        omega
      · cases h
    · cases h
  · cases h

theorem stripAnsiFuel_fuel : ∀ n m (l : List Char), l.length ≤ n → l.length ≤ m →
    stripAnsiFuel n l = stripAnsiFuel m l := by
  intro n
  induction n with
  | zero =>
    intro m l hn _
    have : l = [] := List.length_eq_zero.mp (Nat.le_zero.mp hn)
    subst this
    cases m <;> rfl
  | succ n ih =>
    intro m l hn hm
    cases m with
    | zero =>
      have : l = [] := List.length_eq_zero.mp (Nat.le_zero.mp hm)
      subst this; rfl
    | succ m =>
      cases l with
      | nil => rfl
      | cons c rest =>
        simp only [List.length_cons, Nat.succ_le_succ_iff] at hn hm
        by_cases hc : c = '\x1b'
        · rcases hsp : csiSplit rest with _ | r3
          · simp only [stripAnsiFuel, hc, if_true, hsp]
            rw [ih m rest hn hm]
          · have hlt : r3.length < rest.length := csiSplit_length hsp
            simp only [stripAnsiFuel, hc, if_true, hsp]
            exact ih m r3 (le_trans (Nat.le_of_lt hlt) hn) (le_trans (Nat.le_of_lt hlt) hm)
        · simp only [stripAnsiFuel, hc, if_false]
          rw [ih m rest hn hm]

theorem stripAnsiFuel_eq {n : Nat} {l : List Char} (h : l.length ≤ n) :
    stripAnsiFuel n l = stripAnsi l :=
  stripAnsiFuel_fuel n l.length l h le_rfl

theorem stripAnsi_nil : stripAnsi [] = [] := rfl

theorem stripAnsi_cons_of_ne {c : Char} {rest : List Char} (h : c ≠ '\x1b') :
    stripAnsi (c :: rest) = c :: stripAnsi rest := by
  simp [stripAnsi, stripAnsiFuel, h]

theorem stripAnsi_cons_esc_some {rest r3 : List Char} (h : csiSplit rest = some r3) :
    stripAnsi ('\x1b' :: rest) = stripAnsi r3 := by
  have h1 : stripAnsi ('\x1b' :: rest) = stripAnsiFuel rest.length r3 := by
    simp [stripAnsi, stripAnsiFuel, h]
  rw [h1, stripAnsiFuel_eq (Nat.le_of_lt (csiSplit_length h))]

theorem stripAnsi_append_of_no_esc {p : List Char} (h : '\x1b' ∉ p) (w : List Char) :
    stripAnsi (p ++ w) = p ++ stripAnsi w := by
  induction p with
  | nil => simp
  | cons c rest ih =>
    have hc : c ≠ '\x1b' := fun hc => h (hc ▸ List.mem_cons_self c rest)
    have hrest : '\x1b' ∉ rest := fun hm => h (List.mem_cons_of_mem c hm)
    rw [List.cons_append, stripAnsi_cons_of_ne hc, ih hrest, List.cons_append]

theorem isParamByte_eq_false_of_inter {c : Char} (h : isIntermediateByte c = true) :
    isParamByte c = false := by
  simp only [isIntermediateByte, decide_eq_true_eq] at h
  simp only [isParamByte, decide_eq_false_iff_not]
  rintro (⟨h1, _⟩ | rfl | rfl)
  · exact absurd (le_trans h1 h.2) (by decide)
  · exact absurd h.2 (by decide)
  · exact absurd h.2 (by decide)

theorem isParamByte_eq_false_of_final {c : Char} (h : isFinalByte c = true) :
    isParamByte c = false := by
  simp only [isFinalByte, decide_eq_true_eq] at h
  simp only [isParamByte, decide_eq_false_iff_not]
  rintro (⟨_, h2⟩ | rfl | rfl)
  · exact absurd (le_trans h.1 h2) (by decide)
  · exact absurd h.1 (by decide)
  · exact absurd h.1 (by decide)

theorem isIntermediateByte_eq_false_of_final {c : Char} (h : isFinalByte c = true) :
    isIntermediateByte c = false := by
  simp only [isFinalByte, decide_eq_true_eq] at h
  simp only [isIntermediateByte, decide_eq_false_iff_not]
  rintro ⟨_, h2⟩
  exact absurd (le_trans h.1 h2) (by decide)

theorem dropWhile_append_all {p : Char → Bool} {xs : List Char}
    (h : ∀ c ∈ xs, p c = true) (ys : List Char) :
    List.dropWhile p (xs ++ ys) = List.dropWhile p ys := by
  induction xs with
  | nil => simp
  | cons c rest ih =>
    rw [List.cons_append, List.dropWhile_cons,
      if_pos (h c (List.mem_cons_self c rest))]
    exact ih (fun d hd => h d (List.mem_cons_of_mem c hd))

theorem csiSplit_of_csi {ps ins : List Char} {f : Char} (w : List Char)
    (hps : ∀ c ∈ ps, isParamByte c = true)
    (hins : ∀ c ∈ ins, isIntermediateByte c = true) (hf : isFinalByte f = true) :
    csiSplit ('[' :: (ps ++ ins ++ [f] ++ w)) = some w := by
  have h1 : List.dropWhile isParamByte (ps ++ (ins ++ (f :: w))) =
      ins ++ (f :: w) := by
    rw [dropWhile_append_all hps]
    cases ins with
    | nil =>
      simp only [List.nil_append, List.dropWhile_cons,
        isParamByte_eq_false_of_final hf]
      simp
    | cons i rest =>
      simp only [List.cons_append, List.dropWhile_cons,
        isParamByte_eq_false_of_inter (hins i (List.mem_cons_self i rest))]
      simp
  have h2 : List.dropWhile isIntermediateByte (ins ++ (f :: w)) = f :: w := by
    rw [dropWhile_append_all hins]
    simp only [List.dropWhile_cons, isIntermediateByte_eq_false_of_final hf]
    simp
  simp only [csiSplit, List.append_assoc, List.singleton_append, h1, h2, hf, if_true]

theorem stripAnsi_csi_absorb {e : List Char} (h : IsCsi e) (w : List Char) :
    stripAnsi (e ++ w) = stripAnsi w := by
  obtain ⟨ps, ins, f, hps, hins, hf, rfl⟩ := h
  have heq : ('\x1b' :: '[' :: (ps ++ ins ++ [f])) ++ w =
      '\x1b' :: ('[' :: (ps ++ ins ++ [f] ++ w)) := by simp
  rw [heq, stripAnsi_cons_esc_some (csiSplit_of_csi w hps hins hf)]

/-! ### Lemmas about line splitting and the drain loop -/

theorem splitFirstNewline_eq_none_iff {l : List Char} :
    splitFirstNewline l = none ↔ '\n' ∉ l := by
  induction l with
  | nil => simp [splitFirstNewline]
  | cons c rest ih =>
    by_cases hc : c = '\n'
    · subst hc; simp [splitFirstNewline]
    · simp only [splitFirstNewline, hc, if_false, List.mem_cons]
      rcases h : splitFirstNewline rest with _ | ⟨l0, r0⟩
      · simpa [Ne.symm hc] using ih.mp h
      · have : '\n' ∈ rest := by
          by_contra hn
          rw [ih.mpr hn] at h
          cases h
        simp [this]

theorem splitFirstNewline_length {l a b : List Char}
    (h : splitFirstNewline l = some (a, b)) : b.length < l.length := by
  induction l generalizing a b with
  | nil => cases h
  | cons c rest ih =>
    by_cases hc : c = '\n'
    · subst hc
      simp only [splitFirstNewline, if_pos rfl, Option.some.injEq] at h
      cases h
      simp
    · simp only [splitFirstNewline, hc, if_false] at h
      rcases h2 : splitFirstNewline rest with _ | ⟨l0, r0⟩
      · rw [h2] at h; cases h
      · rw [h2] at h
        simp only [Option.some.injEq, Prod.mk.injEq] at h
        obtain ⟨_, rfl⟩ := h
        exact Nat.lt_trans (ih h2) (Nat.lt_succ_self _)

theorem splitFirstNewline_append_some {x y a b : List Char}
    (h : splitFirstNewline x = some (a, b)) :
    splitFirstNewline (x ++ y) = some (a, b ++ y) := by
  induction x generalizing a b with
  | nil => cases h
  | cons c rest ih =>
    by_cases hc : c = '\n'
    · subst hc
      simp only [splitFirstNewline, if_pos rfl, Option.some.injEq] at h
      cases h
      simp [splitFirstNewline]
    · simp only [splitFirstNewline, hc, if_false] at h
      rcases h2 : splitFirstNewline rest with _ | ⟨l0, r0⟩
      · rw [h2] at h; cases h
      · rw [h2] at h
        simp only [Option.some.injEq, Prod.mk.injEq] at h
        obtain ⟨rfl, rfl⟩ := h
        simp [splitFirstNewline, hc, ih h2]

theorem splitFirstNewline_append_none {x : List Char}
    (h : splitFirstNewline x = none) (y : List Char) :
    splitFirstNewline (x ++ y) =
      Option.map (fun p => (x ++ p.1, p.2)) (splitFirstNewline y) := by
  induction x with
  | nil => simp [Option.map_id]
  | cons c rest ih =>
    by_cases hc : c = '\n'
    · subst hc; simp [splitFirstNewline] at h
    · simp only [splitFirstNewline, hc, if_false] at h
      have hrest : splitFirstNewline rest = none := by
        rcases h2 : splitFirstNewline rest with _ | ⟨l0, r0⟩
        · rfl
        · rw [h2] at h; cases h
      rcases hy : splitFirstNewline y with _ | ⟨l0, r0⟩
      · simp [splitFirstNewline, hc, ih hrest, hy]
      · simp [splitFirstNewline, hc, ih hrest, hy]

theorem drainFuel_fuel {σ : Type u} (f : σ → List Char → σ) :
    ∀ n m (st : σ) (buf : List Char), buf.length ≤ n → buf.length ≤ m →
      drainFuel f n st buf = drainFuel f m st buf := by
  intro n
  induction n with
  | zero =>
    intro m st buf hn _
    have : buf = [] := List.length_eq_zero.mp (Nat.le_zero.mp hn)
    subst this
    cases m with
    | zero => rfl
    | succ m => simp [drainFuel, splitFirstNewline]
  | succ n ih =>
    intro m st buf hn hm
    cases m with
    | zero =>
      have : buf = [] := List.length_eq_zero.mp (Nat.le_zero.mp hm)
      subst this
      simp [drainFuel, splitFirstNewline]
    | succ m =>
      rcases h : splitFirstNewline buf with _ | ⟨l, r⟩
      · simp [drainFuel, h]
      · have hr : r.length < buf.length := splitFirstNewline_length h
        simp only [drainFuel, h]
        exact ih m (f st l) r (by omega) (by omega)

theorem drainFuel_eq {σ : Type u} {f : σ → List Char → σ} {n : Nat} {st : σ}
    {buf : List Char} (h : buf.length ≤ n) :
    drainFuel f n st buf = drainLines f st buf :=
  drainFuel_fuel f n buf.length st buf h le_rfl

theorem drainLines_none {σ : Type u} {f : σ → List Char → σ} {st : σ}
    {buf : List Char} (h : splitFirstNewline buf = none) :
    drainLines f st buf = (st, buf) := by
  cases buf with
  | nil => rfl
  | cons c rest => simp [drainLines, drainFuel, h]

theorem drainLines_some {σ : Type u} {f : σ → List Char → σ} {st : σ}
    {buf l r : List Char} (h : splitFirstNewline buf = some (l, r)) :
    drainLines f st buf = drainLines f (f st l) r := by
  cases buf with
  | nil => cases h
  | cons c rest =>
    have hr : r.length ≤ rest.length := by
      have := splitFirstNewline_length h
      simp only [List.length_cons] at this
      omega
    simp only [drainLines, List.length_cons, drainFuel, h]
    exact drainFuel_eq hr

theorem drainLines_snd_no_newline {σ : Type u} (f : σ → List Char → σ) :
    ∀ n (st : σ) (buf : List Char), buf.length ≤ n →
      '\n' ∉ (drainLines f st buf).2 := by
  intro n
  induction n with
  | zero =>
    intro st buf hn
    have : buf = [] := List.length_eq_zero.mp (Nat.le_zero.mp hn)
    subst this
    simp [drainLines, drainFuel]
  | succ n ih =>
    intro st buf hn
    rcases h : splitFirstNewline buf with _ | ⟨l, r⟩
    · rw [drainLines_none h]
      exact splitFirstNewline_eq_none_iff.mp h
    · rw [drainLines_some h]
      have hr : r.length < buf.length := splitFirstNewline_length h
      exact ih (f st l) r (by omega)

theorem drainLines_append {σ : Type u} (f : σ → List Char → σ) :
    ∀ n (x : List Char), x.length ≤ n → ∀ (st : σ) (y : List Char),
      drainLines f st (x ++ y) =
        drainLines f (drainLines f st x).1 ((drainLines f st x).2 ++ y) := by
  intro n
  induction n with
  | zero =>
    intro x hn st y
    have : x = [] := List.length_eq_zero.mp (Nat.le_zero.mp hn)
    subst this
    simp [@drainLines_none _ f st [] rfl]
  | succ n ih =>
    intro x hn st y
    rcases h : splitFirstNewline x with _ | ⟨l, r⟩
    · rw [drainLines_none h]
    · rw [drainLines_some (@splitFirstNewline_append_some x y l r h),
        drainLines_some h]
      have hr : r.length < x.length := splitFirstNewline_length h
      exact ih r (by omega) (f st l) y

theorem drainLines_append_eq {σ : Type u} (f : σ → List Char → σ) (st : σ)
    (x y : List Char) :
    drainLines f st (x ++ y) =
      drainLines f (drainLines f st x).1 ((drainLines f st x).2 ++ y) :=
  drainLines_append f x.length x le_rfl st y

theorem drainLines_no_newline {σ : Type u} (f : σ → List Char → σ) (st : σ)
    (buf : List Char) : '\n' ∉ (drainLines f st buf).2 :=
  drainLines_snd_no_newline f buf.length st buf le_rfl

/-! ### Lemmas about flushLine -/

theorem startsWith_nil_right {p : List Char} (h : p ≠ []) :
    startsWith [] p = false := by
  cases p with
  | nil => exact absurd rfl h
  | cons c t => rfl

theorem flushLine_sentinel {verbose : Bool} {m : List Char} {fs : FlushState}
    {line : List Char}
    (h : startsWith (detectionTargetOf line) (m ++ [':']) = true) :
    flushLine verbose m fs line =
      { fs with capturedExitCode := (Option.or
          (parseIntBase10 ((detectionTargetOf line).drop (m.length + 1)))
          fs.capturedExitCode) } := by
  simp only [detectionTargetOf] at h
  simp only [flushLine, h, if_true]
  rcases hp : parseIntBase10
      ((jsTrim (dropPromptMark (normalizeLine line))).drop (m.length + 1)) with _ | c
  · simp [Option.or, detectionTargetOf, hp]
  · simp [Option.or, detectionTargetOf, hp]

theorem flushLine_suppressed {m : List Char} {fs : FlushState} {line : List Char}
    (h1 : startsWith (detectionTargetOf line) (m ++ [':']) = false)
    (h2 : shouldSuppressLine (detectionTargetOf line) m = true) :
    flushLine false m fs line = fs := by
  simp only [detectionTargetOf] at h1 h2
  simp [flushLine, h1, h2]

theorem flushLine_emit {m : List Char} {fs : FlushState} {line : List Char}
    (h1 : startsWith (detectionTargetOf line) (m ++ [':']) = false)
    (h2 : shouldSuppressLine (detectionTargetOf line) m = false) :
    flushLine false m fs line =
      if dropPromptMark (normalizeLine line) = [] then fs
      else { fs with stdoutOut := fs.stdoutOut ++ [dropPromptMark (normalizeLine line)] } := by
  simp only [detectionTargetOf] at h1 h2
  simp only [flushLine, h1, h2, Bool.not_false, Bool.true_and, if_false,
    Bool.false_eq_true, List.length_pos]
  rcases hw : dropPromptMark (normalizeLine line) with _ | ⟨c, t⟩
  · simp
  · simp

theorem flushLine_verbose {m : List Char} {fs : FlushState} {line : List Char}
    (h1 : startsWith (detectionTargetOf line) (m ++ [':']) = false) :
    flushLine true m fs line =
      if line = [] then fs
      else { fs with stdoutOut := fs.stdoutOut ++ [line] } := by
  simp only [detectionTargetOf] at h1
  simp only [flushLine, h1, Bool.not_true, Bool.false_and, if_false,
    Bool.false_eq_true, List.length_pos]
  rcases line with _ | ⟨c, t⟩
  · simp
  · simp

theorem flushLine_nil (verbose : Bool) (m : List Char) (fs : FlushState) :
    flushLine verbose m fs [] = fs := by
  have h1 : startsWith (detectionTargetOf []) (m ++ [':']) = false := by
    have he : detectionTargetOf [] = [] := rfl
    rw [he]
    exact startsWith_nil_right (by simp)
  cases verbose with
  | false =>
    have h2 : shouldSuppressLine (detectionTargetOf []) m = false := by
      have he : detectionTargetOf [] = [] := rfl
      rw [he] at h1 ⊢
      simp only [shouldSuppressLine, h1]
      rfl
    rw [flushLine_emit h1 h2]
    rfl
  | true =>
    rw [flushLine_verbose h1]
    rfl

/-! ### Lemmas about the message handler and the close path -/

theorem handleMessage_stdout_append (verbose : Bool) (m : List Char)
    (st : RunState) (a b : List Char) :
    handleMessage verbose m (handleMessage verbose m st (.frame (.stdout a)))
      (.frame (.stdout b)) =
      handleMessage verbose m st (.frame (.stdout (a ++ b))) := by
  simp only [handleMessage, ← List.append_assoc,
    drainLines_append_eq (flushLine verbose m) st.flushSt (st.stdoutBuffer ++ a) b]

theorem handleMessage_buffer_no_newline {verbose : Bool} {m : List Char}
    {st : RunState} {e : MsgEvent} (h : '\n' ∉ st.stdoutBuffer) :
    '\n' ∉ (handleMessage verbose m st e).stdoutBuffer := by
  cases e with
  | malformed => exact h
  | frame f =>
    cases f with
    | stdout text => exact drainLines_no_newline _ _ _
    | stderr text => exact h
    | stdin text => exact h
    | disconnect r => exact h
    | setSize a b c d => exact h
    | unknownTag t => exact h

theorem foldl_buffer_no_newline (verbose : Bool) (m : List Char)
    (msgs : List MsgEvent) :
    ∀ st : RunState, '\n' ∉ st.stdoutBuffer →
      '\n' ∉ (msgs.foldl (handleMessage verbose m) st).stdoutBuffer := by
  induction msgs with
  | nil => intro st h; exact h
  | cons e rest ih =>
    intro st h
    exact ih _ (handleMessage_buffer_no_newline h)

theorem closeFlush_eq_newline_flush (verbose : Bool) (m : List Char)
    {st : RunState} (h : '\n' ∉ st.stdoutBuffer) :
    closeFlush verbose m st = handleMessage verbose m st (.frame (.stdout ['\n'])) := by
  obtain ⟨buf, fl, serr, w⟩ := st
  simp only at h
  have hsplit : splitFirstNewline (buf ++ ['\n']) = some (buf, []) := by
    rw [splitFirstNewline_append_none (splitFirstNewline_eq_none_iff.mpr h)]
    simp [splitFirstNewline]
  have hdrain : drainLines (flushLine verbose m) fl (buf ++ ['\n']) =
      (flushLine verbose m fl buf, []) := by
    rw [drainLines_some hsplit]
    exact drainLines_none rfl
  simp only [handleMessage, hdrain]
  cases buf with
  | nil => simp [closeFlush, flushLine_nil]
  | cons c t => simp [closeFlush]

theorem closeFlush_warnings (verbose : Bool) (m : List Char) (st : RunState) :
    (closeFlush verbose m st).warnings = st.warnings := by
  rw [closeFlush]
  split <;> rfl

/-! ### Lemmas about decorated text -/

theorem isCsi_no_cr {e : List Char} (h : IsCsi e) : '\r' ∉ e := by
  obtain ⟨ps, ins, f, hps, hins, hf, rfl⟩ := h
  intro hmem
  rcases List.mem_cons.mp hmem with h1 | hmem2
  · exact absurd h1 (by decide)
  rcases List.mem_cons.mp hmem2 with h1 | hmem3
  · exact absurd h1 (by decide)
  rcases List.mem_append.mp hmem3 with h1 | h1
  · rcases List.mem_append.mp h1 with h2 | h2
    · have := hps _ h2
      simp [isParamByte] at this
    · have := hins _ h2
      simp [isIntermediateByte] at this
  · have h2 := List.mem_singleton.mp h1
    subst h2
    simp [isFinalByte] at hf

theorem Decorated.refl : ∀ s : List Char, Decorated s s := by
  intro s
  induction s with
  | nil => exact .nil
  | cons c t ih => exact .chr c ih

theorem Decorated.strip {s w : List Char} (hd : Decorated s w)
    (hesc : '\x1b' ∉ s) : stripAnsi w = s := by
  induction hd with
  | nil => rfl
  | chr c hdec ih =>
    rename_i s0 w0
    have hc : c ≠ '\x1b' := fun hc => hesc (hc ▸ List.mem_cons_self c s0)
    rw [stripAnsi_cons_of_ne hc, ih (fun hm => hesc (List.mem_cons_of_mem c hm))]
  | esc hcsi hdec ih =>
    rw [stripAnsi_csi_absorb hcsi, ih hesc]

theorem decorated_no_cr {s w : List Char} (hd : Decorated s w)
    (hcr : '\r' ∉ s) : '\r' ∉ w := by
  induction hd with
  | nil => exact hcr
  | chr c hdec ih =>
    rename_i s0 w0
    intro hmem
    rcases List.mem_cons.mp hmem with rfl | hm
    · exact hcr (List.mem_cons_self _ s0)
    · exact ih (fun hx => hcr (List.mem_cons_of_mem c hx)) hm
  | esc hcsi hdec ih =>
    intro hmem
    rcases List.mem_append.mp hmem with hm | hm
    · exact isCsi_no_cr hcsi hm
    · exact ih hcr hm

/-! ### Lemmas about the close handler result -/

theorem closeResult_none {verbose : Bool} {m : List Char} {st : RunState}
    (h : (closeFlush verbose m st).flushSt.capturedExitCode = none) :
    closeResult verbose m st =
      ({ closeFlush verbose m st with
          warnings := (closeFlush verbose m st).warnings + 1 }, 1) := by
  simp only [closeResult]
  rw [h]

theorem closeResult_some {verbose : Bool} {m : List Char} {st : RunState}
    {c : Int} (h : (closeFlush verbose m st).flushSt.capturedExitCode = some c) :
    closeResult verbose m st = (closeFlush verbose m st, c) := by
  simp only [closeResult]
  rw [h]

/-! ### Claim theorems -/

/-- C1: for every run in which the channel closes without any sentinel
line having been observed (the captured exit code is still unset after
the final close-time flush), `run()` resolves exactly the integer `1`
and emits one additional warning beyond those already logged; an
uncaptured exit status is never reported as success. -/
theorem C1_uncaptured_close_returns_one (verbose : Bool) (m : List Char)
    (events : List MsgEvent)
    (h : (streamCommand verbose m events).1.flushSt.capturedExitCode = none) :
    (streamCommand verbose m events).2 = 1 ∧
    (streamCommand verbose m events).1.warnings =
      (events.foldl (handleMessage verbose m) initialRunState).warnings + 1 := by
  rcases hc : (closeFlush verbose m
      (events.foldl (handleMessage verbose m) initialRunState)).flushSt.capturedExitCode
    with _ | c
  · unfold streamCommand at h ⊢
    rw [closeResult_none hc] at h ⊢
    refine ⟨rfl, ?_⟩
    show (closeFlush verbose m _).warnings + 1 = _
    rw [closeFlush_warnings]
  · unfold streamCommand at h
    rw [closeResult_some hc] at h
    rw [hc] at h
    cases h

theorem C1_witness :
    (streamCommand false (['M']) []).1.flushSt.capturedExitCode = none ∧
    ((streamCommand false (['M']) []).2 = 1 ∧
     (streamCommand false (['M']) []).1.warnings =
       (([] : List MsgEvent).foldl (handleMessage false (['M'])) initialRunState).warnings + 1) :=
  ⟨rfl, C1_uncaptured_close_returns_one false (['M']) [] rfl⟩

/-- C2: a completed line whose cleansed, trimmed form begins with
`<exitMarker>:` only updates the captured exit code — to the
`parseInt`-parsed value of the remainder when it is numeric, leaving the
previous value (in particular, unset) untouched when it is
malformed/non-numeric — and writes nothing; concretely, a stdout line
`<marker>:0` followed by close makes the run return `0`, `<marker>:137`
makes it return `137`, and `<marker>:abc` leaves the code unset so the
fallback `1` applies. -/
theorem C2_sentinel_parsing :
    (∀ (verbose : Bool) (m : List Char) (fs : FlushState) (line : List Char),
      startsWith (detectionTargetOf line) (m ++ [':']) = true →
      flushLine verbose m fs line =
        { fs with capturedExitCode := (Option.or
            (parseIntBase10 ((detectionTargetOf line).drop (m.length + 1)))
            fs.capturedExitCode) }) ∧
    (streamCommand false ("__COLAB_CLI_EXIT__0000".data)
      [.frame (.stdout ("__COLAB_CLI_EXIT__0000:0\n".data))]).2 = 0 ∧
    (streamCommand false ("__COLAB_CLI_EXIT__0000".data)
      [.frame (.stdout ("__COLAB_CLI_EXIT__0000:137\n".data))]).2 = 137 ∧
    (streamCommand false ("__COLAB_CLI_EXIT__0000".data)
      [.frame (.stdout ("__COLAB_CLI_EXIT__0000:abc\n".data))]).1.flushSt.capturedExitCode
        = none ∧
    (streamCommand false ("__COLAB_CLI_EXIT__0000".data)
      [.frame (.stdout ("__COLAB_CLI_EXIT__0000:abc\n".data))]).2 = 1 :=
  ⟨fun _ _ _ _ h => flushLine_sentinel h, by decide, by decide, by decide, by decide⟩

theorem C2_witness :
    startsWith (detectionTargetOf ("XY:7".data)) (("XY".data) ++ [':']) = true ∧
    flushLine false ("XY".data) { capturedExitCode := none, stdoutOut := [] }
      ("XY:7".data) =
      { capturedExitCode := some 7, stdoutOut := [] } := by
  refine ⟨by decide, ?_⟩
  have h := C2_sentinel_parsing.1 false ("XY".data)
    { capturedExitCode := none, stdoutOut := [] } ("XY:7".data) (by decide)
  rw [h]
  decide

/-- C4: feeding a byte sequence to the line processor as one stdout frame
or as any list of sub-chunk stdout frames produces exactly the same
state — in particular the identical sequence of completed lines — as long
as the starting buffer is a valid line-processor buffer (no embedded
newline, which holds for every reachable state). -/
theorem C4_chunking_invariance (verbose : Bool) (m : List Char)
    (chunks : List (List Char)) (st : RunState) (h : '\n' ∉ st.stdoutBuffer) :
    (chunks.map (fun c => MsgEvent.frame (WireFrame.stdout c))).foldl
        (handleMessage verbose m) st =
      handleMessage verbose m st (.frame (.stdout chunks.flatten)) := by
  induction chunks generalizing st with
  | nil =>
    simp only [List.map_nil, List.foldl_nil, List.flatten_nil]
    have hnone : splitFirstNewline st.stdoutBuffer = none :=
      splitFirstNewline_eq_none_iff.mpr h
    obtain ⟨buf, fl, serr, w⟩ := st
    simp only at hnone
    simp [handleMessage, drainLines_none hnone]
  | cons c cs ih =>
    simp only [List.map_cons, List.foldl_cons, List.flatten_cons]
    rw [ih _ (handleMessage_buffer_no_newline h), handleMessage_stdout_append]

theorem C4_witness :
    ('\n' ∉ initialRunState.stdoutBuffer) ∧
    ((["ab".data, "c\nd".data].map (fun c => MsgEvent.frame (WireFrame.stdout c))).foldl
        (handleMessage false (['M'])) initialRunState =
      handleMessage false (['M']) initialRunState
        (.frame (.stdout (["ab".data, "c\nd".data].flatten)))) :=
  ⟨by decide, C4_chunking_invariance false (['M']) _ initialRunState (by decide)⟩

/-- C6: a command that is empty or consists only of whitespace makes
`run()` fail with the empty-command error before any network activity:
no terminal-creation HTTP request and no socket open is performed. -/
theorem C6_blank_command_rejected (verbose : Bool) (m command : List Char)
    (resp : CreateTerminalResponse) (events : List MsgEvent)
    (h : ∀ c ∈ command, isJsSpace c = true) :
    runCommand verbose m command resp events = (.error .emptyCommand, []) := by
  unfold runCommand
  rw [if_pos (jsTrim_eq_nil_of_all_space h)]

theorem C6_witness :
    runCommand false (['M']) ("  \t ".data)
      { ok := true, name := [], statusText := [] } [] =
      (.error .emptyCommand, []) :=
  C6_blank_command_rejected false (['M']) ("  \t ".data)
    { ok := true, name := [], statusText := [] } [] (by decide)

/-- C7: on channel close, the trailing partial line in the buffer is
flushed exactly once through the very line-processing path used for
newline-terminated lines: the close-time flush state equals the state
that one final newline-terminated stdout frame would have produced, and
when the buffer is non-empty it equals one `flushLine` call on the
buffered text with the buffer cleared — a final unterminated line is
never lost. -/
theorem C7_trailing_line_flushed_on_close (verbose : Bool) (m : List Char)
    (msgs : List MsgEvent) :
    closeFlush verbose m (msgs.foldl (handleMessage verbose m) initialRunState) =
      (msgs ++ [MsgEvent.frame (WireFrame.stdout ['\n'])]).foldl
        (handleMessage verbose m) initialRunState ∧
    ((msgs.foldl (handleMessage verbose m) initialRunState).stdoutBuffer ≠ [] →
      closeFlush verbose m (msgs.foldl (handleMessage verbose m) initialRunState) =
        { msgs.foldl (handleMessage verbose m) initialRunState with
          flushSt := flushLine verbose m
            (msgs.foldl (handleMessage verbose m) initialRunState).flushSt
            (msgs.foldl (handleMessage verbose m) initialRunState).stdoutBuffer
          stdoutBuffer := [] }) := by
  have hinv : '\n' ∉ (msgs.foldl (handleMessage verbose m) initialRunState).stdoutBuffer :=
    foldl_buffer_no_newline verbose m msgs initialRunState (by simp [initialRunState])
  constructor
  · rw [List.foldl_append]
    simp only [List.foldl_cons, List.foldl_nil]
    exact closeFlush_eq_newline_flush verbose m hinv
  · intro hne
    rw [closeFlush, if_pos (List.length_pos.mpr hne)]

theorem C7_witness :
    closeFlush false (['M'])
        ([MsgEvent.frame (WireFrame.stdout ("abc".data))].foldl
          (handleMessage false (['M'])) initialRunState) =
      { [MsgEvent.frame (WireFrame.stdout ("abc".data))].foldl
          (handleMessage false (['M'])) initialRunState with
        flushSt := flushLine false (['M'])
          ([MsgEvent.frame (WireFrame.stdout ("abc".data))].foldl
            (handleMessage false (['M'])) initialRunState).flushSt
          ([MsgEvent.frame (WireFrame.stdout ("abc".data))].foldl
            (handleMessage false (['M'])) initialRunState).stdoutBuffer
        stdoutBuffer := [] } :=
  (C7_trailing_line_flushed_on_close false (['M'])
    [MsgEvent.frame (WireFrame.stdout ("abc".data))]).2 (by decide)

/-- C8: a received frame whose tag is not one meaningful to this client
(an unknown tag, or the known but unhandled `stdin` and `set_size` tags)
leaves the whole run state — in particular the line buffer and the
captured exit code — unchanged, and a malformed (non-JSON-decodable)
frame only increments the warning log and is otherwise skipped; neither
aborts the run. -/
theorem C8_unknown_and_malformed_frames_harmless (verbose : Bool)
    (m : List Char) (st : RunState) :
    (∀ tag, handleMessage verbose m st (.frame (.unknownTag tag)) = st) ∧
    (∀ text, handleMessage verbose m st (.frame (.stdin text)) = st) ∧
    (∀ r c wpx hpx, handleMessage verbose m st (.frame (.setSize r c wpx hpx)) = st) ∧
    handleMessage verbose m st .malformed = { st with warnings := st.warnings + 1 } :=
  ⟨fun _ => rfl, fun _ => rfl, fun _ _ _ _ => rfl, rfl⟩

/-- C9: when the HTTP create-terminal request returns a non-success
status, `run()` fails with an error and never attempts the streaming
socket connection; when moreover the command was not blank, the error is
exactly the terminal-creation failure and the only network action
performed is the HTTP request. -/
theorem C9_http_failure_skips_socket (verbose : Bool) (m command : List Char)
    (resp : CreateTerminalResponse) (events : List MsgEvent)
    (h : resp.ok = false) :
    (∃ e, (runCommand verbose m command resp events).1 = .error e) ∧
    (∀ name, NetAction.socketOpen name ∉ (runCommand verbose m command resp events).2) ∧
    (jsTrim command ≠ [] →
      runCommand verbose m command resp events =
        (.error (.createTerminalFailed resp.statusText), [.createTerminalRequest])) := by
  unfold runCommand
  by_cases hb : jsTrim command = []
  · rw [if_pos hb]
    exact ⟨⟨.emptyCommand, rfl⟩, by simp, fun hc => absurd hb hc⟩
  · rw [if_neg hb, if_pos h]
    refine ⟨⟨.createTerminalFailed resp.statusText, rfl⟩, ?_, fun _ => rfl⟩
    intro name
    simp

theorem C9_witness :
    (∃ e, (runCommand false (['M']) ("ls".data)
      { ok := false, name := [], statusText := ("Bad Gateway".data) } []).1 = .error e) ∧
    (∀ name, NetAction.socketOpen name ∉
      (runCommand false (['M']) ("ls".data)
        { ok := false, name := [], statusText := ("Bad Gateway".data) } []).2) ∧
    runCommand false (['M']) ("ls".data)
        { ok := false, name := [], statusText := ("Bad Gateway".data) } [] =
      (.error (.createTerminalFailed ("Bad Gateway".data)), [.createTerminalRequest]) := by
  have h := C9_http_failure_skips_socket false (['M']) ("ls".data)
    { ok := false, name := [], statusText := ("Bad Gateway".data) } [] rfl
  exact ⟨h.1, h.2.1, h.2.2 (by decide)⟩

/-- C3 counterexample: the claim says a non-sentinel line is suppressed
if and only if it is the literal echo of one of the prologue/epilogue
commands of the wrapped payload or a bare `exit`/`logout`.  The line
`__COLAB_CLI_STATUS=$?` is the literal echo of the status-capture
prologue command, yet the recognizer does not suppress it: in
non-verbose mode the executor writes it to standard output. -/
theorem C3_counterexample :
    claimBoilerplate ("echo hi".data) ("__COLAB_CLI_EXIT__0000".data)
      ("__COLAB_CLI_STATUS=$?".data) ∧
    shouldSuppressLine ("__COLAB_CLI_STATUS=$?".data)
      ("__COLAB_CLI_EXIT__0000".data) = false ∧
    (flushLine false ("__COLAB_CLI_EXIT__0000".data)
        { capturedExitCode := none, stdoutOut := [] }
        ("__COLAB_CLI_STATUS=$?".data)).stdoutOut =
      [("__COLAB_CLI_STATUS=$?".data)] := by
  refine ⟨?_, by decide, by decide⟩
  simp only [claimBoilerplate]
  decide

/-- C3 amended: in non-verbose mode, a completed line that is not a
sentinel line is suppressed exactly when its cleansed, trimmed form is
recognized by the literal recognizer — it starts with the constant text
`printf '__COLAB_CLI_EXIT__`, or equals one of `PS1=`, `stty -echo`,
`stty echo`, `exit`, `logout` — and every other line is emitted exactly
when its cleansed (untrimmed) form is non-empty.  The echoed
status-capture command `__COLAB_CLI_STATUS=$?` is not in the recognizer
and is therefore emitted. -/
theorem C3_suppression_exact (m : List Char) (fs : FlushState) (line : List Char)
    (h : startsWith (detectionTargetOf line) (m ++ [':']) = false) :
    ((flushLine false m fs line).stdoutOut = fs.stdoutOut ↔
      (shouldSuppressLine (detectionTargetOf line) m = true ∨
       dropPromptMark (normalizeLine line) = [])) ∧
    (shouldSuppressLine (detectionTargetOf line) m =
      (startsWith (detectionTargetOf line) ("printf \x27__COLAB_CLI_EXIT__".data) ||
       detectionTargetOf line == "PS1=".data ||
       detectionTargetOf line == "stty -echo".data ||
       detectionTargetOf line == "stty echo".data ||
       detectionTargetOf line == "exit".data ||
       detectionTargetOf line == "logout".data)) := by
  constructor
  · cases hs : shouldSuppressLine (detectionTargetOf line) m with
    | true =>
      rw [flushLine_suppressed h hs]
      simp
    | false =>
      rw [flushLine_emit h hs]
      rcases hw : dropPromptMark (normalizeLine line) with _ | ⟨c, t⟩
      · simp
      · simp only [if_neg (by simp : ¬(c :: t = []))]
        constructor
        · intro heq
          have := congrArg List.length heq
          simp at this
        · rintro (hx | hx)
          · cases hx
          · cases hx
  · simp only [shouldSuppressLine, h, Bool.false_or]

theorem C3_witness :
    startsWith (detectionTargetOf ("hello".data)) ((['M']) ++ [':']) = false ∧
    (((flushLine false (['M']) { capturedExitCode := none, stdoutOut := [] }
        ("hello".data)).stdoutOut =
        ({ capturedExitCode := none, stdoutOut := [] } : FlushState).stdoutOut ↔
      (shouldSuppressLine (detectionTargetOf ("hello".data)) (['M']) = true ∨
       dropPromptMark (normalizeLine ("hello".data)) = [])) ∧
     (shouldSuppressLine (detectionTargetOf ("hello".data)) (['M']) =
      (startsWith (detectionTargetOf ("hello".data))
          ("printf \x27__COLAB_CLI_EXIT__".data) ||
       detectionTargetOf ("hello".data) == "PS1=".data ||
       detectionTargetOf ("hello".data) == "stty -echo".data ||
       detectionTargetOf ("hello".data) == "stty echo".data ||
       detectionTargetOf ("hello".data) == "exit".data ||
       detectionTargetOf ("hello".data) == "logout".data))) :=
  ⟨by decide, C3_suppression_exact (['M'])
    { capturedExitCode := none, stdoutOut := [] } ("hello".data) (by decide)⟩

/-- C5 counterexample: the claim asks that every string `s` not
containing the exit marker, decorated with escape sequences and a
leading prompt, be forwarded exactly as `s`.  For `s = "exit"` — which
does not contain the marker — the cleansed line is recognized as shell
boilerplate and suppressed: nothing at all is written, so `s` is not
forwarded. -/
theorem C5_counterexample :
    Decorated ("exit".data) ("\x1b[0m".data ++ "exit".data) ∧
    ¬ (("__COLAB_CLI_EXIT__0000".data) <:+: ("exit".data)) ∧
    (flushLine false ("__COLAB_CLI_EXIT__0000".data)
        { capturedExitCode := none, stdoutOut := [] }
        (promptMark ++ ("\x1b[0m".data ++ "exit".data))).stdoutOut = [] := by
  refine ⟨?_, by decide, by decide⟩
  have hcsi : IsCsi ("\x1b[0m".data) :=
    ⟨['0'], [], 'm', by decide, by decide, by decide, by decide⟩
  exact .esc hcsi (Decorated.refl ("exit".data))

/-- C5 amended: for every non-empty string `s` that does not contain the
exit marker, is not recognized as boilerplate by the suppression rules,
and contains no raw escape or carriage-return character of its own,
processing a line consisting of `s` decorated with ANSI/VT escape
sequences and a leading prompt decoration (in non-verbose mode) strips
both the escape sequences and the prompt and forwards exactly `s` to
standard output. -/
theorem C5_strip_and_forward (s w m : List Char) (fs : FlushState)
    (hesc : '\x1b' ∉ s) (hcr : '\r' ∉ s) (hne : s ≠ [])
    (hm : ¬ (m <:+: s))
    (hsup : shouldSuppressLine (jsTrim s) m = false)
    (hd : Decorated s w) :
    flushLine false m fs (promptMark ++ w) =
      { fs with stdoutOut := fs.stdoutOut ++ [s] } := by
  have hwcr : '\r' ∉ w := decorated_no_cr hd hcr
  have h1 : removeCr (promptMark ++ w) = promptMark ++ w := by
    apply removeCr_eq_self
    intro hmem
    rcases List.mem_append.mp hmem with hp | hw
    · revert hp; decide
    · exact hwcr hw
  have h2 : stripAnsi (promptMark ++ w) = promptMark ++ s := by
    rw [stripAnsi_append_of_no_esc (by decide) w, hd.strip hesc]
  have h4 : dropPromptMark (normalizeLine (promptMark ++ w)) = s := by
    rw [normalizeLine, h1, h2, dropPromptMark,
      if_pos (startsWith_append promptMark s)]
    exact List.drop_left promptMark s
  have h5 : detectionTargetOf (promptMark ++ w) = jsTrim s := by
    rw [detectionTargetOf, h4]
  have h6 : startsWith (detectionTargetOf (promptMark ++ w)) (m ++ [':']) = false := by
    rw [h5]
    cases hb : startsWith (jsTrim s) (m ++ [':']) with
    | false => rfl
    | true => exact absurd (marker_infix_of_detection hb) hm
  have h7 : shouldSuppressLine (detectionTargetOf (promptMark ++ w)) m = false := by
    rw [h5]
    exact hsup
  rw [flushLine_emit h6 h7, h4, if_neg hne]

theorem C5_witness :
    flushLine false (['M']) { capturedExitCode := none, stdoutOut := [] }
        (promptMark ++ ("\x1b[31m".data ++ "hello".data)) =
      { capturedExitCode := none, stdoutOut := [("hello".data)] } := by
  have hcsi : IsCsi ("\x1b[31m".data) :=
    ⟨['3', '1'], [], 'm', by decide, by decide, by decide, by decide⟩
  exact C5_strip_and_forward ("hello".data) ("\x1b[31m".data ++ "hello".data)
    (['M']) { capturedExitCode := none, stdoutOut := [] }
    (by decide) (by decide) (by decide) (by decide) (by decide)
    (.esc hcsi (Decorated.refl ("hello".data)))

/-- C10 counterexample: the claim says a completed line whose content is
empty after carriage-return removal, escape stripping and prompt
removal produces no write at all.  In verbose mode the raw line is
written instead of the cleansed one: the pure escape-sequence line
`ESC[0m` has empty cleansed content, yet the executor writes the raw
four-character line. -/
theorem C10_counterexample :
    dropPromptMark (normalizeLine ("\x1b[0m".data)) = [] ∧
    (flushLine true (['M']) { capturedExitCode := none, stdoutOut := [] }
        ("\x1b[0m".data)).stdoutOut = [("\x1b[0m".data)] := by
  constructor <;> decide

/-- C10 amended: in non-verbose mode a completed line whose content is
empty after carriage-return removal, escape stripping and prompt removal
produces no stdout write; in every mode, each `flushLine` call either
writes nothing or appends exactly one non-empty string (in verbose mode
the raw line, which can be non-empty even when the cleansed content is
empty). -/
theorem C10_blank_lines_dropped (verbose : Bool) (m : List Char)
    (fs : FlushState) (line : List Char) :
    (verbose = false → dropPromptMark (normalizeLine line) = [] →
      (flushLine false m fs line).stdoutOut = fs.stdoutOut) ∧
    ((flushLine verbose m fs line).stdoutOut = fs.stdoutOut ∨
     ∃ out, out ≠ [] ∧
       (flushLine verbose m fs line).stdoutOut = fs.stdoutOut ++ [out]) := by
  constructor
  · intro _ hempty
    cases hb : startsWith (detectionTargetOf line) (m ++ [':']) with
    | true => rw [flushLine_sentinel hb]
    | false =>
      cases hs : shouldSuppressLine (detectionTargetOf line) m with
      | true => rw [flushLine_suppressed hb hs]
      | false => rw [flushLine_emit hb hs, if_pos hempty]
  · cases hb : startsWith (detectionTargetOf line) (m ++ [':']) with
    | true =>
      left
      rw [flushLine_sentinel hb]
    | false =>
      cases verbose with
      | false =>
        cases hs : shouldSuppressLine (detectionTargetOf line) m with
        | true =>
          left
          rw [flushLine_suppressed hb hs]
        | false =>
          rw [flushLine_emit hb hs]
          rcases hw : dropPromptMark (normalizeLine line) with _ | ⟨c, t⟩
          · left; rw [if_pos rfl]
          · right
            exact ⟨c :: t, by simp, by rw [if_neg (by simp : ¬(c :: t = []))]⟩
      | true =>
        rw [flushLine_verbose hb]
        rcases line with _ | ⟨c, t⟩
        · left; rw [if_pos rfl]
        · right
          exact ⟨c :: t, by simp, by rw [if_neg (by simp : ¬(c :: t = []))]⟩

theorem C10_witness :
    (flushLine false (['M']) { capturedExitCode := none, stdoutOut := [] }
        ("/# ".data)).stdoutOut =
      ({ capturedExitCode := none, stdoutOut := [] } : FlushState).stdoutOut :=
  (C10_blank_lines_dropped false (['M'])
    { capturedExitCode := none, stdoutOut := [] } ("/# ".data)).1 rfl (by decide)
